import Mathlib

/-!
Verification of the playback controller of the jukebox application
(`scripts/player.js`). The `Player` class is embedded shallowly: its mutable
fields become a Lean structure, each method becomes a state-transforming
function, and the two audio-subsystem notifications (`ended`, `error`) become
explicit events. The asynchronous outcome of `audio.play()` (the promise may
resolve or reject) is made explicit as a boolean parameter `ok` on every
operation that requests playback start; the deferred error-skip scheduled by
`setTimeout` in `handlePlaybackError` is modelled as a counter of pending
timers (`pending`) together with a separate `errorSkipTimer` event that fires
one of them, reading `currentIndex` at fire time exactly as the closure in the
source does (JavaScript coerces `null` to `0` in `null + 1`, captured by
`jsIndex`). A ghost allocation counter `nextId` tags each audio element so
that handle identity (`new Audio(...)` per track) is observable, and a ghost
`events` log records the `songchange` / `playbackstopped` notifications the
controller dispatches.
-/

/-- A song record as supplied to the `Player` constructor
(`{title, artist, file}`). -/
structure Song where
  title : String
  artist : String
  file : String
deriving DecidableEq

/-- The state of one audio element as far as the controller touches it:
its source, its volume, its position, and whether it is paused. `id` is a
ghost field recording the allocation order of `new Audio(...)`, so that
"the same element" versus "a fresh element" is observable in the model. -/
structure AudioEl where
  id : Nat
  src : String
  volume : Rat
  currentTime : Rat
  paused : Bool
deriving DecidableEq

/-- Notifications the controller dispatches on `document`. -/
inductive Event where
  | songchange (index : Nat)
  | playbackstopped
deriving DecidableEq

/-- The mutable state of the `Player` class. `nextId` is the ghost allocator
for audio-element identities, `pending` counts error-skip timers scheduled by
`handlePlaybackError` and not yet fired, and `events` is the ghost log of
dispatched notifications. All other fields are exactly the fields set in the
constructor. -/
structure Player where
  songs : List Song
  audio : Option AudioEl
  currentIndex : Option Nat
  isPlaying : Bool
  isMuted : Bool
  volume : Rat
  isSequence : Bool
  nextId : Nat
  pending : Nat
  events : List Event
deriving DecidableEq

/-- The constructor: `new Player(songList)`. -/
def Player.init (songList : List Song) : Player :=
  { songs := songList
    audio := none
    currentIndex := none
    isPlaying := false
    isMuted := false
    volume := 1
    isSequence := false
    nextId := 0
    pending := 0
    events := [] }

/-- JavaScript numeric coercion of `currentIndex`: `null` behaves as `0` in
`null + 1` and in `null < n`. -/
def jsIndex : Option Nat → Int
  | none => 0
  | some k => (k : Int)

/-- `Player.play(index, fromSequence)`. The argument `ok` records whether the
asynchronous `audio.play()` start succeeds (`then` branch, sets
`isPlaying = true` and dispatches `songchange`) or fails (`catch` branch,
sets `isPlaying = false`). -/
def Player.play (s : Player) (index : Int) (fromSequence : Bool) (ok : Bool) : Player :=
  if index < 0 ∨ (s.songs.length : Int) ≤ index then s
  else
    let s1 :=
      if s.audio = none then s
      else
        let wasSequence := s.isSequence && fromSequence
        { s with audio := none, isPlaying := false,
                 isSequence := if wasSequence then s.isSequence else false }
    let s2 := if fromSequence then s1 else { s1 with isSequence := true }
    let song := s2.songs.getD index.toNat { title := "", artist := "", file := "" }
    { s2 with
        audio := some { id := s2.nextId
                        src := song.file
                        volume := if s2.isMuted then 0 else s2.volume
                        currentTime := 0
                        paused := !ok }
        currentIndex := some index.toNat
        nextId := s2.nextId + 1
        isPlaying := ok
        events := if ok then s2.events ++ [Event.songchange index.toNat] else s2.events }

/-- `Player.pause()`. -/
def Player.pause (s : Player) : Player :=
  match s.audio with
  | none => s
  | some a =>
      if s.isPlaying then
        { s with audio := some { a with paused := true }, isPlaying := false }
      else s

/-- `Player.resume()`; `ok` is the outcome of the asynchronous
`audio.play()` (on failure only a log line is emitted). -/
def Player.resume (s : Player) (ok : Bool) : Player :=
  match s.audio with
  | none => s
  | some a =>
      if s.isPlaying then s
      else if ok then
        { s with audio := some { a with paused := false }, isPlaying := true }
      else s

/-- `Player.stop()`. -/
def Player.stop (s : Player) : Player :=
  match s.audio with
  | none => s
  | some _ =>
      { s with audio := none
               isPlaying := false
               currentIndex := none
               isSequence := false
               events := s.events ++ [Event.playbackstopped] }

/-- `Player.setVolume(volume)`: clamp to [0,1] via
`Math.max(0, Math.min(1, volume))`, then apply to the element when present
and not muted. -/
def Player.setVolume (s : Player) (v : Rat) : Player :=
  let s1 := { s with volume := max 0 (min 1 v) }
  match s1.audio with
  | none => s1
  | some a => if s1.isMuted then s1 else { s1 with audio := some { a with volume := s1.volume } }

/-- `Player.mute()`. -/
def Player.mute (s : Player) : Player :=
  let s1 := { s with isMuted := true }
  match s1.audio with
  | none => s1
  | some a => { s1 with audio := some { a with volume := 0 } }

/-- `Player.unmute()`. -/
def Player.unmute (s : Player) : Player :=
  let s1 := { s with isMuted := false }
  match s1.audio with
  | none => s1
  | some a => { s1 with audio := some { a with volume := s1.volume } }

/-- `Player.toggleMute()`. -/
def Player.toggleMute (s : Player) : Player :=
  if s.isMuted then s.unmute else s.mute

/-- `Player.playAll()`. -/
def Player.playAll (s : Player) (ok : Bool) : Player :=
  if s.songs.length = 0 then s
  else ({ s with isSequence := true }).play 0 true ok

/-- The `ended` listener registered in `play`: set `isPlaying = false`; if in
sequence mode and not at the last index, play the next track with
`fromSequence = true`, otherwise clear sequence mode. -/
def Player.onEnded (s : Player) (ok : Bool) : Player :=
  let s1 := { s with isPlaying := false }
  if s1.isSequence = true ∧ jsIndex s1.currentIndex < (s1.songs.length : Int) - 1 then
    s1.play (jsIndex s1.currentIndex + 1) true ok
  else
    { s1 with isSequence := false }

/-- The state-changing part of `Player.handlePlaybackError(song)`: in sequence
mode before the last index it schedules an error-skip timer (`setTimeout`,
0.5 time-units) — modelled by incrementing `pending`; in sequence mode at the
last index it clears `isSequence` and calls `stop()`; otherwise it only
surfaces the error message, with no state change. -/
def Player.handlePlaybackError (s : Player) : Player :=
  if s.isSequence = true ∧ jsIndex s.currentIndex < (s.songs.length : Int) - 1 then
    { s with pending := s.pending + 1 }
  else if s.isSequence = true then
    ({ s with isSequence := false }).stop
  else s

/-- Firing one scheduled error-skip timer: the `setTimeout` callback runs
`this.play(this.currentIndex + 1, true)`, reading `currentIndex` at fire
time (JavaScript evaluates `null + 1` to `1`). Nothing in the source cancels
these timers. -/
def Player.errorSkipTimer (s : Player) (ok : Bool) : Player :=
  if s.pending = 0 then s
  else ({ s with pending := s.pending - 1 }).play (jsIndex s.currentIndex + 1) true ok

/-- The external operations that drive the controller: user commands, the two
audio-subsystem notifications, and the firing of a scheduled error-skip
timer. -/
inductive Op where
  | play (index : Int) (fromSeq : Bool) (ok : Bool)
  | pause
  | resume (ok : Bool)
  | stop
  | setVolume (v : Rat)
  | mute
  | unmute
  | toggleMute
  | playAll (ok : Bool)
  | ended (ok : Bool)
  | error
  | skipTimer (ok : Bool)

/-- One step of the controller. -/
def Player.applyOp (s : Player) : Op → Player
  | Op.play i f ok => s.play i f ok
  | Op.pause => s.pause
  | Op.resume ok => s.resume ok
  | Op.stop => s.stop
  | Op.setVolume v => s.setVolume v
  | Op.mute => s.mute
  | Op.unmute => s.unmute
  | Op.toggleMute => s.toggleMute
  | Op.playAll ok => s.playAll ok
  | Op.ended ok => s.onEnded ok
  | Op.error => s.handlePlaybackError
  | Op.skipTimer ok => s.errorSkipTimer ok

/-- The state reached from a fresh `Player` by a sequence of operations. -/
def Player.run (songList : List Song) (ops : List Op) : Player :=
  ops.foldl (fun s op => s.applyOp op) (Player.init songList)

/-- The handle/index/playing consistency invariant of the data model. -/
def playerInv (s : Player) : Prop :=
  (s.audio = none ↔ s.currentIndex = none) ∧ (s.isPlaying = true → s.audio ≠ none)

/-- A three-song list used for concrete witnesses. -/
def demoSongs : List Song :=
  [ { title := "Song 1", artist := "Artist 1", file := "song1.mp3" }
  , { title := "Song 2", artist := "Artist 2", file := "song2.mp3" }
  , { title := "Song 3", artist := "Artist 3", file := "song3.mp3" } ]

/-! ## Helper lemmas -/

theorem play_fromSeq (s : Player) (index : Int) (ok : Bool)
    (h0 : 0 ≤ index) (h1 : index < (s.songs.length : Int)) :
    (s.play index true ok).currentIndex = some index.toNat ∧
    (s.play index true ok).isSequence = s.isSequence ∧
    (s.play index true ok).audio ≠ none ∧
    (s.play index true ok).songs = s.songs ∧
    (s.play index true ok).isPlaying = ok := by
  unfold Player.play
  rw [if_neg (by omega)]
  cases hseq : s.isSequence <;> split_ifs <;> simp_all

theorem mute_fields (s : Player) :
    (s.mute).isMuted = true ∧ (s.mute).volume = s.volume ∧
    (s.mute).audio.isSome = s.audio.isSome := by
  unfold Player.mute
  cases h : s.audio <;> simp [h]

theorem unmute_fields (s : Player) :
    (s.unmute).isMuted = false ∧ (s.unmute).volume = s.volume ∧
    (s.unmute).audio.isSome = s.audio.isSome := by
  unfold Player.unmute
  cases h : s.audio <;> simp [h]

/-! ## Claim theorems -/

/-- C6: for every state and every index outside `[0, n)` (`n` the track-list
length), `play(index)` returns the state completely unchanged — no field is
modified, no handle is created or released, and the ghost event log shows no
notification was emitted. -/
theorem play_invalid_noop (s : Player) (index : Int) (fromSeq ok : Bool)
    (h : index < 0 ∨ (s.songs.length : Int) ≤ index) :
    s.play index fromSeq ok = s := by
  unfold Player.play
  rw [if_pos h]

theorem play_invalid_noop_witness :
    ((-1 : Int) < 0 ∨ (((Player.init demoSongs).songs.length : Int) ≤ -1)) ∧
      (Player.init demoSongs).play (-1) false true = Player.init demoSongs :=
  ⟨Or.inl (by decide), play_invalid_noop (Player.init demoSongs) (-1) false true (Or.inl (by decide))⟩

/-- C7: for every input `v`, after `setVolume(v)` the stored volume is the
clamp of `v` to `[0,1]` (so it lies in that interval, and is `v` itself when
`v` is already in range), `isMuted` is unchanged, and when a handle exists and
the controller is not muted the clamped volume is applied to the handle. -/
theorem setVolume_spec (s : Player) (v : Rat) :
    0 ≤ (s.setVolume v).volume ∧ (s.setVolume v).volume ≤ 1 ∧
    (s.setVolume v).volume = max 0 (min 1 v) ∧
    (0 ≤ v → v ≤ 1 → (s.setVolume v).volume = v) ∧
    (s.setVolume v).isMuted = s.isMuted ∧
    (s.isMuted = false → s.audio ≠ none →
      (s.setVolume v).audio.map AudioEl.volume = some (max 0 (min 1 v))) := by
  have hf : (s.setVolume v).volume = max 0 (min 1 v) ∧
      (s.setVolume v).isMuted = s.isMuted ∧
      (s.isMuted = false → s.audio ≠ none →
        (s.setVolume v).audio.map AudioEl.volume = some (max 0 (min 1 v))) := by
    unfold Player.setVolume
    cases h : s.audio with
    | none => simp [h]
    | some a =>
        simp only [h]
        split_ifs with hm <;> simp_all
  obtain ⟨h1, h2, h3⟩ := hf
  refine ⟨by rw [h1]; exact le_max_left 0 _,
    by rw [h1]; exact max_le (by norm_num) (min_le_left 1 v), h1, ?_, h2, h3⟩
  intro h0 hv1
  rw [h1, min_eq_right hv1, max_eq_right h0]

theorem setVolume_spec_witness :
    (0 : Rat) ≤ 2 ∧ ((Player.init demoSongs).setVolume 2).volume ≤ 1 :=
  ⟨by norm_num, ((setVolume_spec (Player.init demoSongs) 2).2.1)⟩

/-- C8: `mute()` then `unmute()` restores the exact pre-mute stored volume:
neither operation alters the `volume` field, the round trip ends unmuted, and
`unmute()` reapplies the stored volume to the handle when one exists. -/
theorem mute_unmute_roundtrip (s : Player) :
    (s.mute.unmute).volume = s.volume ∧
    (s.mute).volume = s.volume ∧
    (s.unmute).volume = s.volume ∧
    (s.mute.unmute).isMuted = false ∧
    (s.audio ≠ none → (s.mute.unmute).audio.map AudioEl.volume = some s.volume) ∧
    (s.audio ≠ none → (s.unmute).audio.map AudioEl.volume = some s.volume) := by
  unfold Player.mute Player.unmute
  cases h : s.audio <;> simp [h]

theorem mute_unmute_roundtrip_witness :
    (((Player.init demoSongs).setVolume (1/2)).mute.unmute).volume =
      ((Player.init demoSongs).setVolume (1/2)).volume :=
  (mute_unmute_roundtrip ((Player.init demoSongs).setVolume (1/2))).1

/-- C9: `toggleMute()` flips `isMuted` — it is exactly `mute()` from an
unmuted state and exactly `unmute()` from a muted state — and applying it
twice is the identity on the pair (`isMuted`, stored `volume`). -/
theorem toggleMute_spec (s : Player) :
    (s.toggleMute).isMuted = !s.isMuted ∧
    (s.isMuted = false → s.toggleMute = s.mute) ∧
    (s.isMuted = true → s.toggleMute = s.unmute) ∧
    (s.toggleMute.toggleMute).isMuted = s.isMuted ∧
    (s.toggleMute.toggleMute).volume = s.volume := by
  cases hmu : s.isMuted
  · have h1 : s.toggleMute = s.mute := by unfold Player.toggleMute; rw [hmu]; simp
    have h2 : (s.mute).toggleMute = (s.mute).unmute := by
      unfold Player.toggleMute; rw [(mute_fields s).1]; simp
    refine ⟨?_, fun _ => h1, by simp, ?_, ?_⟩
    · rw [h1, (mute_fields s).1]; rfl
    · rw [h1, h2, (unmute_fields s.mute).1]
    · rw [h1, h2, (unmute_fields s.mute).2.1, (mute_fields s).2.1]
  · have h1 : s.toggleMute = s.unmute := by unfold Player.toggleMute; rw [hmu]; simp
    have h2 : (s.unmute).toggleMute = (s.unmute).mute := by
      unfold Player.toggleMute; rw [(unmute_fields s).1]; simp
    refine ⟨?_, by simp, fun _ => h1, ?_, ?_⟩
    · rw [h1, (unmute_fields s).1]; rfl
    · rw [h1, h2, (mute_fields s.unmute).1]
    · rw [h1, h2, (mute_fields s.unmute).2.1, (unmute_fields s).2.1]

theorem toggleMute_spec_witness :
    (Player.init demoSongs).isMuted = false ∧
      (Player.init demoSongs).toggleMute = (Player.init demoSongs).mute :=
  ⟨by decide, (toggleMute_spec (Player.init demoSongs)).2.1 (by decide)⟩

/-- Everything in the controller state except the `isPlaying` flag and the
paused-status of the audio element: the current index, volume, mute and
sequence flags, track list, the identity (`id`), source and volume of the
audio handle, the pending-timer count and the notification log. -/
def frameOf (s : Player) :
    Option Nat × Rat × Bool × Bool × List Song ×
      Option (Nat × String × Rat) × Nat × List Event :=
  (s.currentIndex, s.volume, s.isMuted, s.isSequence, s.songs,
    s.audio.map (fun a => (a.id, a.src, a.volume)), s.pending, s.events)

/-- C10: `pause()` and `resume()` modify at most `isPlaying` and the handle's
playing/paused status: the current index, stored volume, mute flag, sequence
flag, track list, and the identity of the audio handle (together with its
source and volume) are unchanged, no notification is emitted, and both are
complete no-ops when no handle exists. -/
theorem pause_resume_frame (s : Player) (ok : Bool) :
    frameOf s.pause = frameOf s ∧
    frameOf (s.resume ok) = frameOf s ∧
    (s.audio = none → s.pause = s ∧ s.resume ok = s) := by
  unfold Player.pause Player.resume frameOf
  cases h : s.audio with
  | none => simp [h]
  | some a => split_ifs <;> simp_all

theorem pause_resume_frame_witness :
    (Player.init demoSongs).audio = none ∧
      (Player.init demoSongs).pause = Player.init demoSongs ∧
      (Player.init demoSongs).resume true = Player.init demoSongs :=
  ⟨rfl, (pause_resume_frame (Player.init demoSongs) true).2.2 rfl⟩

/-- C1: refuted on the code. From a state in sequence mode (here: `playAll()`
on three tracks), the manual invocation `play(1, fromSequence=false)` leaves
`isSequence = true`: the branch `if (!fromSequence) this.isSequence = true`
in `Player.play` sets sequence mode on every manual call instead of clearing
it, so a manual selection does not cancel an in-progress auto-advance
(contradicting the repository's own tests, which expect `false` here). -/
theorem manual_play_keeps_sequence :
    ((Player.init demoSongs).playAll true).isSequence = true ∧
    (((Player.init demoSongs).playAll true).play 1 false true).isSequence = true ∧
    (((Player.init demoSongs).playAll true).play 1 false true).currentIndex = some 1 ∧
    ((Player.init demoSongs).play 0 false true).isSequence = true := by decide

/-- C2: refuted on the code. Three tracks, `playAll()`, a track error on
track 0 schedules the 0.5-time-unit error-skip, then `stop()` runs before the
timer fires: the stopped state has no handle, no index and is not playing, but
when the stale timer then fires it executes `play(currentIndex + 1, true)`
with `currentIndex = null` (JavaScript: `null + 1 = 1`), creating a fresh
handle for track 1 and restarting playback — the deferred action is neither
cancelled nor inert. -/
theorem stale_error_skip_restarts_playback :
    ((((Player.init demoSongs).playAll true).handlePlaybackError).stop).audio = none ∧
    ((((Player.init demoSongs).playAll true).handlePlaybackError).stop).currentIndex = none ∧
    ((((Player.init demoSongs).playAll true).handlePlaybackError).stop).isPlaying = false ∧
    (((((Player.init demoSongs).playAll true).handlePlaybackError).stop).errorSkipTimer
        true).currentIndex = some 1 ∧
    (((((Player.init demoSongs).playAll true).handlePlaybackError).stop).errorSkipTimer
        true).isPlaying = true ∧
    (((((Player.init demoSongs).playAll true).handlePlaybackError).stop).errorSkipTimer
        true).audio.map AudioEl.src = some "song2.mp3" := by decide

/-- C4: a track-error notification in sequence mode. Not at the last index:
after the fixed 0.5-time-unit delay the scheduled skip plays the next track,
so `currentIndex` becomes `k+1` with `isSequence` still `true` and a live
handle. At the last index: the handler clears `isSequence` and calls
`stop()`, releasing the handle and nulling `currentIndex`. -/
theorem error_skip_spec (s : Player) (k : Nat) (ok : Bool)
    (hseq : s.isSequence = true) (hidx : s.currentIndex = some k) :
    (k + 1 < s.songs.length →
       ((s.handlePlaybackError).errorSkipTimer ok).currentIndex = some (k + 1) ∧
       ((s.handlePlaybackError).errorSkipTimer ok).isSequence = true ∧
       ((s.handlePlaybackError).errorSkipTimer ok).audio ≠ none) ∧
    (k + 1 = s.songs.length → s.audio ≠ none →
       (s.handlePlaybackError).isSequence = false ∧
       (s.handlePlaybackError).audio = none ∧
       (s.handlePlaybackError).currentIndex = none ∧
       (s.handlePlaybackError).isPlaying = false) := by
  constructor
  · intro hk
    have hcond : s.isSequence = true ∧ jsIndex s.currentIndex < (s.songs.length : Int) - 1 := by
      refine ⟨hseq, ?_⟩
      rw [hidx]
      simp only [jsIndex]
      omega
    have herr : s.handlePlaybackError = { s with pending := s.pending + 1 } := by
      unfold Player.handlePlaybackError
      rw [if_pos hcond]
    rw [herr]
    have hfire : ({ s with pending := s.pending + 1 } : Player).errorSkipTimer ok =
        ({ s with pending := s.pending } : Player).play (jsIndex s.currentIndex + 1) true ok := by
      unfold Player.errorSkipTimer
      simp
    rw [hfire]
    have hplay := play_fromSeq ({ s with pending := s.pending } : Player)
      (jsIndex s.currentIndex + 1) ok
      (by rw [hidx]; simp only [jsIndex]; omega)
      (by simp only [hidx, jsIndex]; omega)
    have htoNat : (jsIndex s.currentIndex + 1).toNat = k + 1 := by
      rw [hidx]; simp only [jsIndex]; omega
    refine ⟨?_, ?_, ?_⟩
    · rw [hplay.1, htoNat]
    · rw [hplay.2.1]; exact hseq
    · exact hplay.2.2.1
  · intro hk hau
    have hcond : ¬ (s.isSequence = true ∧ jsIndex s.currentIndex < (s.songs.length : Int) - 1) := by
      intro hc
      rw [hidx] at hc
      simp only [jsIndex] at hc
      omega
    have herr : s.handlePlaybackError = ({ s with isSequence := false } : Player).stop := by
      unfold Player.handlePlaybackError
      rw [if_neg hcond, if_pos hseq]
    rw [herr]
    unfold Player.stop
    cases h : s.audio with
    | none => exact absurd h hau
    | some a => simp [h]

theorem error_skip_spec_witness :
    ((((Player.init demoSongs).playAll true).handlePlaybackError).errorSkipTimer
        true).currentIndex = some 1 ∧
      ((((Player.init demoSongs).playAll true).handlePlaybackError).errorSkipTimer
        true).isSequence = true :=
  ⟨((error_skip_spec ((Player.init demoSongs).playAll true) 0 true (by decide)
      (by decide)).1 (by decide)).1,
   ((error_skip_spec ((Player.init demoSongs).playAll true) 0 true (by decide)
      (by decide)).1 (by decide)).2.1⟩

theorem playerInv_play (s : Player) (i : Int) (f ok : Bool) (h : playerInv s) :
    playerInv (s.play i f ok) := by
  unfold Player.play
  split_ifs <;> first | exact h | simp [playerInv]

theorem playerInv_stop (s : Player) (h : playerInv s) : playerInv s.stop := by
  unfold Player.stop
  cases ha : s.audio with
  | none => exact h
  | some a => simp [playerInv]

theorem playerInv_applyOp (s : Player) (op : Op) (h : playerInv s) :
    playerInv (s.applyOp op) := by
  cases op with
  | play i f ok => exact playerInv_play s i f ok h
  | pause =>
      simp only [Player.applyOp]
      unfold Player.pause
      cases ha : s.audio with
      | none => exact h
      | some a => cases hp : s.isPlaying <;> simp_all [playerInv]
  | resume ok =>
      simp only [Player.applyOp]
      unfold Player.resume
      cases ha : s.audio with
      | none => exact h
      | some a => cases hp : s.isPlaying <;> cases ok <;> simp_all [playerInv]
  | stop =>
      simp only [Player.applyOp]
      exact playerInv_stop s h
  | setVolume v =>
      simp only [Player.applyOp]
      unfold Player.setVolume
      cases ha : s.audio with
      | none => simp_all [playerInv]
      | some a => cases hm : s.isMuted <;> simp_all [playerInv]
  | mute =>
      simp only [Player.applyOp]
      unfold Player.mute
      cases ha : s.audio with
      | none => simp_all [playerInv]
      | some a => simp_all [playerInv]
  | unmute =>
      simp only [Player.applyOp]
      unfold Player.unmute
      cases ha : s.audio with
      | none => simp_all [playerInv]
      | some a => simp_all [playerInv]
  | toggleMute =>
      simp only [Player.applyOp]
      unfold Player.toggleMute
      split_ifs
      · unfold Player.unmute
        cases ha : s.audio with
        | none => simp_all [playerInv]
        | some a => simp_all [playerInv]
      · unfold Player.mute
        cases ha : s.audio with
        | none => simp_all [playerInv]
        | some a => simp_all [playerInv]
  | playAll ok =>
      simp only [Player.applyOp]
      unfold Player.playAll
      split_ifs with hlen
      · exact h
      · exact playerInv_play _ 0 true ok (by simpa [playerInv] using h)
  | ended ok =>
      simp only [Player.applyOp, Player.onEnded]
      split_ifs with hc
      · exact playerInv_play _ _ true ok ⟨by simpa using h.1, by simp⟩
      · exact ⟨by simpa using h.1, by simp⟩
  | error =>
      simp only [Player.applyOp]
      unfold Player.handlePlaybackError
      split_ifs with h1 h2
      · have ha := h.1
        have hb := h.2
        unfold playerInv
        refine ⟨by simpa using ha, by simpa using hb⟩
      · exact playerInv_stop _ (by simpa [playerInv] using h)
      · exact h
  | skipTimer ok =>
      simp only [Player.applyOp]
      unfold Player.errorSkipTimer
      split_ifs with h1
      · exact h
      · exact playerInv_play _ _ true ok (by simpa [playerInv] using h)

theorem playerInv_foldl (ops : List Op) :
    ∀ s : Player, playerInv s → playerInv (ops.foldl (fun t op => t.applyOp op) s) := by
  induction ops with
  | nil => intro s h; exact h
  | cons op rest ih =>
      intro s h
      exact ih (s.applyOp op) (playerInv_applyOp s op h)

/-- C5: in every state reachable from a fresh `Player` by any sequence of
operations (commands, track-ended and track-error notifications, and
error-skip timer firings), the audio handle is non-null exactly when
`currentIndex` is non-null, and `isPlaying` holds only when a handle
exists. -/
theorem reachable_playerInv (songList : List Song) (ops : List Op) :
    playerInv (Player.run songList ops) := by
  unfold Player.run
  exact playerInv_foldl ops (Player.init songList) (by simp [playerInv, Player.init])

theorem reachable_playerInv_witness :
    playerInv (Player.run demoSongs [Op.playAll true, Op.ended true, Op.pause]) :=
  reachable_playerInv demoSongs [Op.playAll true, Op.ended true, Op.pause]

/-- The configuration maintained while the auto-advance sequence runs: the
track list is untouched, track `k` is loaded, sequence mode is on, and a live
handle exists. -/
def seqState (songs : List Song) (k : Nat) (t : Player) : Prop :=
  t.songs = songs ∧ t.currentIndex = some k ∧ t.isSequence = true ∧ t.audio ≠ none

theorem playAll_seqState (s : Player) (ok : Bool) (h : 0 < s.songs.length) :
    seqState s.songs 0 (s.playAll ok) := by
  unfold Player.playAll
  rw [if_neg (by omega)]
  have hp := play_fromSeq ({ s with isSequence := true } : Player) 0 ok (by norm_num)
    (by simp; omega)
  refine ⟨hp.2.2.2.1, ?_, ?_, hp.2.2.1⟩
  · rw [hp.1]; rfl
  · rw [hp.2.1]

theorem seqState_ended_step (songs : List Song) (k : Nat) (t : Player) (ok : Bool)
    (hs : seqState songs k t) (hk : k + 1 < songs.length) :
    seqState songs (k + 1) (t.onEnded ok) := by
  obtain ⟨h1, h2, h3, _⟩ := hs
  have hcond : t.isSequence = true ∧ jsIndex t.currentIndex < (t.songs.length : Int) - 1 := by
    refine ⟨h3, ?_⟩
    rw [h2, h1]
    simp only [jsIndex]
    omega
  simp only [Player.onEnded]
  split_ifs
  have hp := play_fromSeq ({ t with isPlaying := false } : Player)
    (jsIndex t.currentIndex + 1) ok
    (by rw [h2]; simp only [jsIndex]; omega)
    (by show jsIndex t.currentIndex + 1 < (t.songs.length : Int); rw [h2, h1];
        simp only [jsIndex]; omega)
  refine ⟨?_, ?_, ?_, hp.2.2.1⟩
  · rw [hp.2.2.2.1]
    exact h1
  · rw [hp.1, h2]
    simp only [jsIndex]
    congr 1
  · rw [hp.2.1]
    exact h3

theorem seqState_ended_last (songs : List Song) (k : Nat) (t : Player) (ok : Bool)
    (hs : seqState songs k t) (hk : k + 1 = songs.length) :
    (t.onEnded ok).isSequence = false ∧ (t.onEnded ok).currentIndex = some k ∧
    (t.onEnded ok).isPlaying = false ∧ (t.onEnded ok).songs = songs := by
  obtain ⟨h1, h2, h3, _⟩ := hs
  have hcond : ¬ (t.isSequence = true ∧ jsIndex t.currentIndex < (t.songs.length : Int) - 1) := by
    rw [h2, h1]
    simp only [jsIndex]
    rintro ⟨-, hlt⟩
    omega
  simp only [Player.onEnded]
  split_ifs
  exact ⟨rfl, h2, rfl, h1⟩

theorem play_isPlaying (s : Player) (i : Int) (f ok : Bool) :
    (s.play i f ok).isPlaying = s.isPlaying ∨ (s.play i f ok).isPlaying = ok := by
  unfold Player.play
  split_ifs <;> simp

theorem onEnded_isPlaying (t : Player) (ok : Bool) :
    (t.onEnded ok).isPlaying = true → ok = true := by
  simp only [Player.onEnded]
  split_ifs with hc
  · intro hp
    rcases play_isPlaying ({ t with isPlaying := false } : Player)
        (jsIndex t.currentIndex + 1) true ok with hh | hh
    · rw [hp] at hh
      exact absurd hh.symm (by simp)
    · rw [hp] at hh
      exact hh.symm
  · intro hp
    exact absurd hp (by simp)

/-- C3: for every state whose track list is non-empty (length `N`),
`playAll()` followed by `N` consecutive track-ended notifications drives
`currentIndex` through `0, 1, …, N-1` in order (after `k` ended notifications
the index is `k` and sequence mode is still on); the `N`-th ended notification
clears `isSequence` while leaving `currentIndex` at `N-1` and `isPlaying` at
`false`; and an ended notification leaves `isPlaying = true` only when the
auto-advance restart it triggered succeeded — the handler itself first sets
`isPlaying` to `false`. -/
theorem playAll_ended_drive (s : Player) (h : 0 < s.songs.length) :
    (∀ k, k < s.songs.length →
      ((fun t : Player => t.onEnded true)^[k] (s.playAll true)).currentIndex = some k ∧
      ((fun t : Player => t.onEnded true)^[k] (s.playAll true)).isSequence = true) ∧
    ((fun t : Player => t.onEnded true)^[s.songs.length] (s.playAll true)).isSequence = false ∧
    ((fun t : Player => t.onEnded true)^[s.songs.length] (s.playAll true)).currentIndex =
      some (s.songs.length - 1) ∧
    ((fun t : Player => t.onEnded true)^[s.songs.length] (s.playAll true)).isPlaying = false ∧
    (∀ (t : Player) (ok : Bool), (t.onEnded ok).isPlaying = true → ok = true) := by
  have main : ∀ k, k < s.songs.length →
      seqState s.songs k ((fun t : Player => t.onEnded true)^[k] (s.playAll true)) := by
    intro k
    induction k with
    | zero =>
        intro _
        simpa using playAll_seqState s true h
    | succ n ih =>
        intro hk
        rw [Function.iterate_succ_apply']
        exact seqState_ended_step s.songs n _ true (ih (by omega)) (by omega)
  have hN : s.songs.length = (s.songs.length - 1) + 1 := by omega
  have hlast := seqState_ended_last s.songs (s.songs.length - 1) _ true
    (main (s.songs.length - 1) (by omega)) (by omega)
  have hiter : (fun t : Player => t.onEnded true)^[s.songs.length] (s.playAll true) =
      ((fun t : Player => t.onEnded true)^[s.songs.length - 1] (s.playAll true)).onEnded true := by
    conv_lhs => rw [hN]
    rw [Function.iterate_succ_apply']
  refine ⟨fun k hk => ⟨(main k hk).2.1, (main k hk).2.2.1⟩, ?_, ?_, ?_, onEnded_isPlaying⟩
  · rw [hiter]; exact hlast.1
  · rw [hiter]; exact hlast.2.1
  · rw [hiter]; exact hlast.2.2.1

theorem playAll_ended_drive_witness :
    0 < (Player.init demoSongs).songs.length ∧
    ((fun t : Player => t.onEnded true)^[(Player.init demoSongs).songs.length]
        ((Player.init demoSongs).playAll true)).isSequence = false :=
  ⟨by decide, (playAll_ended_drive (Player.init demoSongs) (by decide)).2.1⟩
